import Mathlib

/-!
Verification of the cone-constraint subsystem of `cvxpy/constraints/exponential.py`:
the `ExpCone` and `RelEntrQuad` constraint classes — shape validation at
construction, elementwise-cone bookkeeping (`num_cones`, `size`, `shape`,
`cone_sizes`), convexity certification (`is_dcp`), dual-value recovery
(`save_dual_value`), the residual guard, and the `as_quad_approx` converter.
-/

namespace CvxpyExp

/-- Modelled from the spec: the expression-graph collaborator is external
(`cvxpy.expressions`).  An expression term carries a shape (a tuple of
dimensions), an affinity classification that may differ inside the restricted
"dpp" (parametrized-discipline) analysis scope, and an optional concrete
numeric value (present after a solve).  Negation (`-x`, used by
`as_quad_approx`) builds a new graph node over the same sub-expression,
preserving shape and affinity and negating the value elementwise. -/
inductive Expression where
  | leaf (shape : List Nat) (affine : Bool) (affineDpp : Bool)
      (value : Option (List Rat))
  | neg (e : Expression)
deriving DecidableEq, Repr

/-- Shape of an expression: negation preserves the operand's shape. -/
def Expression.shape : Expression → List Nat
  | .leaf s _ _ _ => s
  | .neg e => e.shape

/-- Number of scalar elements, as numpy `size`: the product of the dimensions
(a scalar, shape `[]`, has one element). -/
def Expression.size (e : Expression) : Nat := e.shape.prod

/-- Modelled from the spec: the affinity predicate of the expression-graph
collaborator.  The ambient analysis scope (ordinary vs. dpp) is passed
explicitly; negation of an affine expression is affine. -/
def Expression.is_affine : Expression → Bool → Bool
  | .leaf _ a ad _, dpp => if dpp then ad else a
  | .neg e, dpp => e.is_affine dpp

/-- Concrete numeric value of an expression, if assigned (`.value` in the
source); the value of a negation is the elementwise negation. -/
def Expression.value : Expression → Option (List Rat)
  | .leaf _ _ _ v => v
  | .neg e => (e.value).map (fun l => l.map (fun r => -r))

/-- A numpy-style array: a shape together with row-major flat data. -/
structure NDArray where
  shape : List Nat
  data : List Rat
deriving DecidableEq, Repr

/-- Construction error: the `ValueError` raised when the three operand shapes
disagree, carrying the three shapes (`str((xs, ys, zs))` in the message). -/
inductive ConsError where
  | shapeMismatch (xs ys zs : List Nat)
deriving DecidableEq, Repr

/-- Reshape error: numpy `ValueError` "cannot reshape array of size L into
shape S"; the target `[-1, 3]` stands for `newshape=(-1, 3)`. -/
inductive ReshapeErr where
  | cannotReshape (length : Nat) (target : List Int)
deriving DecidableEq, Repr

/-- numpy `np.reshape(v, newshape=s)` for an explicit target shape: succeeds
iff the flat length equals the product of the target dimensions. -/
def reshapeTo (v : List Rat) (s : List Nat) : Except ReshapeErr NDArray :=
  if v.length = s.prod then .ok ⟨s, v⟩
  else .error (.cannotReshape v.length (s.map Int.ofNat))

/-- The three columns of a flat row-major `(n, 3)` array: entries
`3i`, `3i+1`, `3i+2` respectively (`value[:, 0]`, `value[:, 1]`,
`value[:, 2]` in the source). -/
def cols3 : List Rat → List Rat × List Rat × List Rat
  | a :: b :: c :: rest =>
    (a :: (cols3 rest).1, b :: (cols3 rest).2.1, c :: (cols3 rest).2.2)
  | _ => ([], [], [])

/-- Interleave three per-operand vectors into the row-major per-cone order
`(x_i, y_i, z_i)` repeated per cone index `i`. -/
def interleave3 : List Rat → List Rat → List Rat → List Rat
  | a :: as, b :: bs, c :: cs => a :: b :: c :: interleave3 as bs cs
  | _, _, _ => []

/-- The three dual-value slots of a constraint (the values stored in
`self.dual_variables[i].save_value(...)`), one per operand in order x, y, z. -/
structure DualSlots where
  dv0 : Option NDArray
  dv1 : Option NDArray
  dv2 : Option NDArray
deriving DecidableEq, Repr

/-- Modelled from the spec: the nested projection problem built by
`residual` — fresh variables matching the operand shapes, constrained to the
same cone variant (carrying `m, k` for RelEntrQuad), minimizing the distance
to the current operand values.  `Problem`/`Minimize`/`solve` are external
collaborators; this record captures the data that determines the problem. -/
structure ProjectionProblem where
  xshape : List Nat
  yshape : List Nat
  zshape : List Nat
  xval : List Rat
  yval : List Rat
  zval : List Rat
  quadParams : Option (Int × Int)
deriving DecidableEq, Repr

/-- The `ExpCone` constraint: a reformulated exponential cone constraint over three operand
terms `x, y, z`. -/
structure ExpCone where
  x : Expression
  y : Expression
  z : Expression
deriving DecidableEq, Repr

/-- Constructor `ExpCone.__init__` after operand casting: checks that the three operand
shapes agree (`if xs != ys or xs != zs`) and raises a `ValueError` carrying
the three shapes otherwise. -/
def ExpCone.make (x y z : Expression) : Except ConsError ExpCone :=
  if x.shape ≠ y.shape ∨ x.shape ≠ z.shape then
    .error (.shapeMismatch x.shape y.shape z.shape)
  else .ok ⟨x, y, z⟩

/-- Method `ExpCone.num_cones`: the number of elementwise cones, `self.x.size`. -/
def ExpCone.num_cones (c : ExpCone) : Nat := c.x.size

/-- Property `ExpCone.size`: the number of entries in the combined cones. -/
def ExpCone.size (c : ExpCone) : Nat := 3 * c.num_cones

/-- Method `ExpCone.cone_sizes`: the dimensions of the exponential cones. -/
def ExpCone.cone_sizes (c : ExpCone) : List Nat :=
  List.replicate c.num_cones 3

/-- Property `ExpCone.shape`: `(3,) + self.x.shape`. -/
def ExpCone.shape (c : ExpCone) : List Nat := 3 :: c.x.shape

/-- Field `ExpCone.args`: the operand list passed to the base constructor. -/
def ExpCone.args (c : ExpCone) : List Expression := [c.x, c.y, c.z]

/-- Method `ExpCone.is_dcp`: true iff each argument is affine; with `dpp` set the
same check runs inside the restricted dpp analysis scope. -/
def ExpCone.is_dcp (c : ExpCone) (dpp : Bool) : Bool :=
  if dpp then c.args.all (fun a => a.is_affine true)
  else c.args.all (fun a => a.is_affine false)

/-- Method `ExpCone.is_dgp`: always false. -/
def ExpCone.is_dgp (_ : ExpCone) (_ : Bool) : Bool := false

/-- Method `ExpCone.is_dqcp`: defined as `self.is_dcp()`. -/
def ExpCone.is_dqcp (c : ExpCone) : Bool := c.is_dcp false

/-- Property `ExpCone.residual`: returns the "no value" sentinel when any operand has
no assigned value; otherwise builds the nested projection problem and returns
the external solver's optimal value. -/
def ExpCone.residual (c : ExpCone) (solve : ProjectionProblem → Rat) :
    Option Rat :=
  match c.x.value, c.y.value, c.z.value with
  | some xv, some yv, some zv =>
      some (solve ⟨c.x.shape, c.y.shape, c.z.shape, xv, yv, zv, none⟩)
  | _, _, _ => none

/-- Method `ExpCone.save_dual_value`: reshape the flat dual vector to
`(-1, 3)`, split column-wise, reshape each column to the corresponding
operand's shape, and store the three arrays into the dual-value slots.  A
failing reshape raises before any slot is written; the slots are threaded as
explicit state, returned unchanged on error. -/
def ExpCone.save_dual_value (c : ExpCone) (st : DualSlots) (v : List Rat) :
    DualSlots × Option ReshapeErr :=
  if v.length % 3 ≠ 0 then (st, some (.cannotReshape v.length [-1, 3]))
  else
    let cs := cols3 v
    match reshapeTo cs.1 c.x.shape, reshapeTo cs.2.1 c.y.shape,
        reshapeTo cs.2.2 c.z.shape with
    | .ok d0, .ok d1, .ok d2 => (⟨some d0, some d1, some d2⟩, none)
    | .error e, _, _ => (st, some e)
    | .ok _, .error e, _ => (st, some e)
    | .ok _, .ok _, .error e => (st, some e)

/-- The `RelEntrQuad` constraint: the quadrature approximation of the scalar relative
entropy cone, over operands `x, y, z` with control parameters `m, k`. -/
structure RelEntrQuad where
  x : Expression
  y : Expression
  z : Expression
  m : Int
  k : Int
deriving DecidableEq, Repr

/-- Constructor `RelEntrQuad.__init__` after operand casting: stores `m` and `k`, then
checks that the three operand shapes agree, raising a `ValueError` carrying
the three shapes otherwise. -/
def RelEntrQuad.make (x y z : Expression) (m k : Int) :
    Except ConsError RelEntrQuad :=
  if x.shape ≠ y.shape ∨ x.shape ≠ z.shape then
    .error (.shapeMismatch x.shape y.shape z.shape)
  else .ok ⟨x, y, z, m, k⟩

/-- Method `RelEntrQuad.get_data`: returns `[self.m, self.k]`. -/
def RelEntrQuad.get_data (q : RelEntrQuad) : List Int := [q.m, q.k]

/-- Method `RelEntrQuad.num_cones`: `self.x.size`. -/
def RelEntrQuad.num_cones (q : RelEntrQuad) : Nat := q.x.size

/-- Property `RelEntrQuad.size`: `3 * self.num_cones()`. -/
def RelEntrQuad.size (q : RelEntrQuad) : Nat := 3 * q.num_cones

/-- Method `RelEntrQuad.cone_sizes`: `[3] * self.num_cones()`. -/
def RelEntrQuad.cone_sizes (q : RelEntrQuad) : List Nat :=
  List.replicate q.num_cones 3

/-- Property `RelEntrQuad.shape`: `(3,) + self.x.shape`. -/
def RelEntrQuad.shape (q : RelEntrQuad) : List Nat := 3 :: q.x.shape

/-- Field `RelEntrQuad.args`: the operand list passed to the base constructor. -/
def RelEntrQuad.args (q : RelEntrQuad) : List Expression := [q.x, q.y, q.z]

/-- Method `RelEntrQuad.is_dcp`: same logic as `ExpCone.is_dcp`. -/
def RelEntrQuad.is_dcp (q : RelEntrQuad) (dpp : Bool) : Bool :=
  if dpp then q.args.all (fun a => a.is_affine true)
  else q.args.all (fun a => a.is_affine false)

/-- Method `RelEntrQuad.is_dgp`: always false. -/
def RelEntrQuad.is_dgp (_ : RelEntrQuad) (_ : Bool) : Bool := false

/-- Method `RelEntrQuad.is_dqcp`: defined as `self.is_dcp()`. -/
def RelEntrQuad.is_dqcp (q : RelEntrQuad) : Bool := q.is_dcp false

/-- Property `RelEntrQuad.residual`: the same guarded nested projection as
`ExpCone.residual`, with the nested constraint carrying `m, k`. -/
def RelEntrQuad.residual (q : RelEntrQuad) (solve : ProjectionProblem → Rat) :
    Option Rat :=
  match q.x.value, q.y.value, q.z.value with
  | some xv, some yv, some zv =>
      some (solve ⟨q.x.shape, q.y.shape, q.z.shape, xv, yv, zv,
        some (q.m, q.k)⟩)
  | _, _, _ => none

/-- Method `RelEntrQuad.save_dual_value`: the body is a bare `return` — no state is
touched and no error is raised. -/
def RelEntrQuad.save_dual_value (_ : RelEntrQuad) (st : DualSlots)
    (_ : List Rat) : DualSlots × Option ReshapeErr := (st, none)

/-- Method `ExpCone.as_quad_approx`: `RelEntrQuad(self.y, self.z, -self.x, m, k)`. -/
def ExpCone.as_quad_approx (c : ExpCone) (m k : Int) :
    Except ConsError RelEntrQuad :=
  RelEntrQuad.make c.y c.z (.neg c.x) m k


/-- Sample operand of shape `[2]` with an assigned value. -/
def sampleA : Expression := .leaf [2] true true (some [1, 2])

/-- Sample operand of shape `[2]`, not affine under dpp, with a value. -/
def sampleB : Expression := .leaf [2] true false (some [3, 4])

/-- Sample operand of shape `[2]` with no assigned value. -/
def sampleC : Expression := .leaf [2] false true none

/-- Sample operand of shape `[3]`, used for shape-mismatch scenarios. -/
def sampleD : Expression := .leaf [3] true true (some [1, 2, 3])

theorem cols3_length (v : List Rat) :
    (cols3 v).1.length = v.length / 3 ∧ (cols3 v).2.1.length = v.length / 3 ∧
    (cols3 v).2.2.length = v.length / 3 := by
  match v with
  | [] => simp [cols3]
  | [a] => simp [cols3]
  | [a, b] => simp [cols3]
  | a :: b :: c :: rest =>
    have ih := cols3_length rest
    simp only [cols3, List.length_cons]
    omega

theorem cols3_interleave3 (a b c : List Rat) (hb : a.length = b.length)
    (hc : a.length = c.length) : cols3 (interleave3 a b c) = (a, b, c) := by
  induction a generalizing b c with
  | nil =>
    cases b <;> cases c <;> simp_all [interleave3, cols3]
  | cons x xs ih =>
    cases b with
    | nil => simp at hb
    | cons y ys =>
      cases c with
      | nil => simp at hc
      | cons z zs =>
        simp only [List.length_cons, Nat.succ.injEq] at hb hc
        simp [interleave3, cols3, ih ys zs hb hc]

theorem interleave3_length (a b c : List Rat) (hb : a.length = b.length)
    (hc : a.length = c.length) :
    (interleave3 a b c).length = 3 * a.length := by
  induction a generalizing b c with
  | nil =>
    cases b <;> cases c <;> simp_all [interleave3]
  | cons x xs ih =>
    cases b with
    | nil => simp at hb
    | cons y ys =>
      cases c with
      | nil => simp at hc
      | cons z zs =>
        simp only [List.length_cons, Nat.succ.injEq] at hb hc
        simp only [interleave3, List.length_cons, ih ys zs hb hc]
        omega

theorem expCone_make_ok (x y z : Expression) (hy : x.shape = y.shape)
    (hz : x.shape = z.shape) : ExpCone.make x y z = .ok ⟨x, y, z⟩ := by
  unfold ExpCone.make
  rw [if_neg (fun h => h.elim (fun h1 => h1 hy) (fun h1 => h1 hz))]

theorem relEntrQuad_make_ok (x y z : Expression) (m k : Int)
    (hy : x.shape = y.shape) (hz : x.shape = z.shape) :
    RelEntrQuad.make x y z m k = .ok ⟨x, y, z, m, k⟩ := by
  unfold RelEntrQuad.make
  rw [if_neg (fun h => h.elim (fun h1 => h1 hy) (fun h1 => h1 hz))]

theorem ExpCone.save_dual_value_of_length_eq (c : ExpCone) (st : DualSlots)
    (v : List Rat) (hy : c.y.shape = c.x.shape) (hz : c.z.shape = c.x.shape)
    (hv : v.length = 3 * c.x.shape.prod) :
    c.save_dual_value st v =
      (⟨some ⟨c.x.shape, (cols3 v).1⟩, some ⟨c.x.shape, (cols3 v).2.1⟩,
        some ⟨c.x.shape, (cols3 v).2.2⟩⟩, none) := by
  have hlen := cols3_length v
  have h3 : v.length % 3 = 0 := by omega
  have e1 : (cols3 v).1.length = c.x.shape.prod := by omega
  have e2 : (cols3 v).2.1.length = c.x.shape.prod := by omega
  have e3 : (cols3 v).2.2.length = c.x.shape.prod := by omega
  simp [ExpCone.save_dual_value, reshapeTo, h3, hy, hz, e1, e2, e3]

theorem ExpCone.save_dual_value_of_length_ne (c : ExpCone) (st : DualSlots)
    (v : List Rat) (hy : c.y.shape = c.x.shape) (hz : c.z.shape = c.x.shape)
    (hv : v.length ≠ 3 * c.x.shape.prod) :
    ∃ e, c.save_dual_value st v = (st, some e) := by
  have hlen := cols3_length v
  by_cases h3 : v.length % 3 = 0
  · have e1 : (cols3 v).1.length ≠ c.x.shape.prod := by omega
    refine ⟨.cannotReshape (cols3 v).1.length (c.x.shape.map Int.ofNat), ?_⟩
    simp [ExpCone.save_dual_value, reshapeTo, h3, e1]
  · refine ⟨.cannotReshape v.length [-1, 3], ?_⟩
    simp [ExpCone.save_dual_value, h3]

theorem ExpCone.as_quad_approx_eq (c : ExpCone) (m k : Int)
    (hy : c.y.shape = c.x.shape) (hz : c.z.shape = c.x.shape) :
    c.as_quad_approx m k = .ok ⟨c.y, c.z, .neg c.x, m, k⟩ := by
  unfold ExpCone.as_quad_approx RelEntrQuad.make
  rw [if_neg]
  simp [Expression.shape, hy, hz]

/-- C1: for every ExpCone or RelEntrQuad constructed over three operands of
common shape `S` with `n = prod S` scalar elements, `num_cones` is `n`,
`size` is `3*n`, `shape` is `(3,) + S`, `cone_sizes` is a list of `n`
entries each equal to 3, and `size = sum (cone_sizes) = 3 * num_cones`. -/
theorem c1_elementwise_bookkeeping (x y z : Expression) (m k : Int)
    (S : List Nat) (hx : x.shape = S) (hy : y.shape = S) (hz : z.shape = S) :
    (∀ c : ExpCone, ExpCone.make x y z = .ok c →
      c.num_cones = S.prod ∧ c.size = 3 * S.prod ∧ c.shape = 3 :: S ∧
      c.cone_sizes = List.replicate S.prod 3 ∧
      c.size = (c.cone_sizes).sum ∧ c.size = 3 * c.num_cones) ∧
    (∀ q : RelEntrQuad, RelEntrQuad.make x y z m k = .ok q →
      q.num_cones = S.prod ∧ q.size = 3 * S.prod ∧ q.shape = 3 :: S ∧
      q.cone_sizes = List.replicate S.prod 3 ∧
      q.size = (q.cone_sizes).sum ∧ q.size = 3 * q.num_cones) := by
  constructor
  · intro c hc
    rw [expCone_make_ok x y z (hy ▸ hx) (hz ▸ hx)] at hc
    cases hc
    refine ⟨by simp [ExpCone.num_cones, Expression.size, hx], ?_, ?_, ?_, ?_, ?_⟩
    · simp [ExpCone.size, ExpCone.num_cones, Expression.size, hx]
    · simp [ExpCone.shape, hx]
    · simp [ExpCone.cone_sizes, ExpCone.num_cones, Expression.size, hx]
    · simp [ExpCone.size, ExpCone.cone_sizes, List.sum_replicate, smul_eq_mul,
        Nat.mul_comm]
    · rfl
  · intro q hq
    rw [relEntrQuad_make_ok x y z m k (hy ▸ hx) (hz ▸ hx)] at hq
    cases hq
    refine ⟨by simp [RelEntrQuad.num_cones, Expression.size, hx], ?_, ?_, ?_, ?_, ?_⟩
    · simp [RelEntrQuad.size, RelEntrQuad.num_cones, Expression.size, hx]
    · simp [RelEntrQuad.shape, hx]
    · simp [RelEntrQuad.cone_sizes, RelEntrQuad.num_cones, Expression.size, hx]
    · simp [RelEntrQuad.size, RelEntrQuad.cone_sizes, List.sum_replicate,
        smul_eq_mul, Nat.mul_comm]
    · rfl

theorem c1_elementwise_bookkeeping_witness :
    ExpCone.num_cones ⟨sampleA, sampleB, sampleC⟩ = 2 ∧
    ExpCone.size ⟨sampleA, sampleB, sampleC⟩ = 6 ∧
    ExpCone.cone_sizes ⟨sampleA, sampleB, sampleC⟩ = [3, 3] ∧
    RelEntrQuad.size ⟨sampleA, sampleB, sampleC, 5, 7⟩ = 6 := by
  have h := c1_elementwise_bookkeeping sampleA sampleB sampleC 5 7 [2]
    rfl rfl rfl
  have h1 := h.1 ⟨sampleA, sampleB, sampleC⟩ rfl
  have h2 := h.2 ⟨sampleA, sampleB, sampleC, 5, 7⟩ rfl
  refine ⟨by simpa using h1.1, by simpa using h1.2.1,
    by simpa using h1.2.2.2.1, by simpa using h2.2.1⟩

/-- C2: construction of an ExpCone or RelEntrQuad over already-cast operands
succeeds exactly when the three shape tuples are identical; otherwise it
fails with a shape-mismatch error carrying the three shapes, and no
constraint instance is produced. -/
theorem c2_shape_validation (x y z : Expression) (m k : Int) :
    ((x.shape = y.shape ∧ x.shape = z.shape) →
      ExpCone.make x y z = .ok ⟨x, y, z⟩ ∧
      RelEntrQuad.make x y z m k = .ok ⟨x, y, z, m, k⟩) ∧
    (¬(x.shape = y.shape ∧ x.shape = z.shape) →
      ExpCone.make x y z = .error (.shapeMismatch x.shape y.shape z.shape) ∧
      RelEntrQuad.make x y z m k =
        .error (.shapeMismatch x.shape y.shape z.shape)) := by
  constructor
  · rintro ⟨h1, h2⟩
    exact ⟨expCone_make_ok x y z h1 h2, relEntrQuad_make_ok x y z m k h1 h2⟩
  · intro h
    have hc : x.shape ≠ y.shape ∨ x.shape ≠ z.shape := by tauto
    unfold ExpCone.make RelEntrQuad.make
    rw [if_pos hc, if_pos hc]
    exact ⟨rfl, rfl⟩

theorem c2_shape_validation_witness :
    ExpCone.make sampleA sampleD sampleA =
      .error (.shapeMismatch [2] [3] [2]) ∧
    RelEntrQuad.make sampleA sampleB sampleC 5 7 =
      .ok ⟨sampleA, sampleB, sampleC, 5, 7⟩ := by
  have h1 := (c2_shape_validation sampleA sampleD sampleA 5 7).2 (by decide)
  have h2 := (c2_shape_validation sampleA sampleB sampleC 5 7).1 (by decide)
  exact ⟨by simpa [sampleA, sampleD, Expression.shape] using h1.1, h2.2⟩

/-- C3: for an ExpCone over operands of shape `S` with `n = prod S` elements
and a flat dual vector of length `3n` in row-major per-cone order,
`save_dual_value` reshapes to `(n, 3)`, splits column-wise, reshapes each
column to `S`, and stores the three arrays into the dual slots in order
x, y, z; in particular a vector interleaving three per-operand arrays is
recovered exactly as those arrays with shape `S`. -/
theorem c3_dual_value_recovery (c : ExpCone) (st : DualSlots) (S : List Nat)
    (hx : c.x.shape = S) (hy : c.y.shape = S) (hz : c.z.shape = S) :
    (∀ v : List Rat, v.length = 3 * S.prod →
      c.save_dual_value st v =
        (⟨some ⟨S, (cols3 v).1⟩, some ⟨S, (cols3 v).2.1⟩,
          some ⟨S, (cols3 v).2.2⟩⟩, none)) ∧
    (∀ a b d : List Rat, a.length = S.prod → b.length = S.prod →
      d.length = S.prod →
      c.save_dual_value st (interleave3 a b d) =
        (⟨some ⟨S, a⟩, some ⟨S, b⟩, some ⟨S, d⟩⟩, none)) := by
  constructor
  · intro v hv
    rw [ExpCone.save_dual_value_of_length_eq c st v (hy.trans hx.symm)
      (hz.trans hx.symm) (by rw [hx]; exact hv), hx]
  · intro a b d ha hb hd
    have hlen := interleave3_length a b d (ha.trans hb.symm) (ha.trans hd.symm)
    rw [ExpCone.save_dual_value_of_length_eq c st _ (hy.trans hx.symm)
      (hz.trans hx.symm) (by rw [hx, hlen, ha]), hx,
      cols3_interleave3 a b d (ha.trans hb.symm) (ha.trans hd.symm)]

theorem c3_dual_value_recovery_witness :
    ExpCone.save_dual_value ⟨sampleA, sampleB, sampleC⟩ ⟨none, none, none⟩
        [1, 3, 5, 2, 4, 6] =
      (⟨some ⟨[2], [1, 2]⟩, some ⟨[2], [3, 4]⟩, some ⟨[2], [5, 6]⟩⟩,
        none) := by
  have h := (c3_dual_value_recovery ⟨sampleA, sampleB, sampleC⟩
    ⟨none, none, none⟩ [2] rfl rfl rfl).2 [1, 2] [3, 4] [5, 6] rfl rfl rfl
  simpa [interleave3] using h

/-- C4: `ExpCone.save_dual_value` raises a reshape error iff the input
length differs from `size = 3 * num_cones`; on error no dual slot has been
written, so the dual-value state is unchanged. -/
theorem c4_dual_value_reshape_error (c : ExpCone) (st : DualSlots)
    (v : List Rat) (hy : c.y.shape = c.x.shape) (hz : c.z.shape = c.x.shape) :
    ((c.save_dual_value st v).2.isSome ↔ v.length ≠ c.size) ∧
    ((c.save_dual_value st v).2.isSome → (c.save_dual_value st v).1 = st) := by
  have hsize : c.size = 3 * c.x.shape.prod := rfl
  by_cases hv : v.length = 3 * c.x.shape.prod
  · rw [ExpCone.save_dual_value_of_length_eq c st v hy hz hv]
    simp [hsize, hv]
  · obtain ⟨e, he⟩ := ExpCone.save_dual_value_of_length_ne c st v hy hz hv
    rw [he]
    simp [hsize, hv]

theorem c4_dual_value_reshape_error_witness :
    (ExpCone.save_dual_value ⟨sampleA, sampleB, sampleC⟩
        ⟨some ⟨[2], [9, 9]⟩, none, none⟩ [1, 2, 3, 4]).2.isSome = true ∧
    (ExpCone.save_dual_value ⟨sampleA, sampleB, sampleC⟩
        ⟨some ⟨[2], [9, 9]⟩, none, none⟩ [1, 2, 3, 4]).1 =
      ⟨some ⟨[2], [9, 9]⟩, none, none⟩ := by
  have h := c4_dual_value_reshape_error ⟨sampleA, sampleB, sampleC⟩
    ⟨some ⟨[2], [9, 9]⟩, none, none⟩ [1, 2, 3, 4] rfl rfl
  have hs := h.1.mpr (by decide)
  exact ⟨hs, h.2 hs⟩

/-- C5: `as_quad_approx m k` on an ExpCone with operands `(x, y, z)` returns
a RelEntrQuad whose operand triple is exactly `(y, z, -x)` — the same
underlying `y` and `z` terms and the negation of `x` in the third slot —
carrying the supplied parameters `m` and `k`. -/
theorem c5_as_quad_approx_operands (c : ExpCone) (m k : Int)
    (hy : c.y.shape = c.x.shape) (hz : c.z.shape = c.x.shape) :
    c.as_quad_approx m k = .ok ⟨c.y, c.z, .neg c.x, m, k⟩ :=
  ExpCone.as_quad_approx_eq c m k hy hz

theorem c5_as_quad_approx_operands_witness :
    ExpCone.as_quad_approx ⟨sampleA, sampleB, sampleC⟩ 4 6 =
      .ok ⟨sampleB, sampleC, .neg sampleA, 4, 6⟩ :=
  c5_as_quad_approx_operands ⟨sampleA, sampleB, sampleC⟩ 4 6 rfl rfl

/-- C6: parameter round-trip — for any positive integers `m, k`,
`(as_quad_approx m k).get_data` returns exactly the supplied pair `[m, k]`,
preserved verbatim. -/
theorem c6_get_data_roundtrip (c : ExpCone) (m k : Int) (hm : 0 < m)
    (hk : 0 < k) (hy : c.y.shape = c.x.shape) (hz : c.z.shape = c.x.shape) :
    ∀ q : RelEntrQuad, c.as_quad_approx m k = .ok q → q.get_data = [m, k] := by
  intro q hq
  rw [ExpCone.as_quad_approx_eq c m k hy hz] at hq
  cases hq
  rfl

theorem c6_get_data_roundtrip_witness :
    RelEntrQuad.get_data ⟨sampleB, sampleC, .neg sampleA, 4, 6⟩ = [4, 6] :=
  c6_get_data_roundtrip ⟨sampleA, sampleB, sampleC⟩ 4 6 (by decide)
    (by decide) rfl rfl ⟨sampleB, sampleC, .neg sampleA, 4, 6⟩ rfl

/-- C7: for every ExpCone and RelEntrQuad, `is_dcp` is true iff every
operand is affine; with the dpp flag set the same all-operands-affine check
runs under the restricted dpp analysis scope; and the certification logic is
identical for the two variants. -/
theorem c7_is_dcp_affine_operands (x y z : Expression) (m k : Int)
    (dpp : Bool) :
    (ExpCone.is_dcp ⟨x, y, z⟩ dpp = true ↔
      (x.is_affine dpp = true ∧ y.is_affine dpp = true ∧
        z.is_affine dpp = true)) ∧
    (RelEntrQuad.is_dcp ⟨x, y, z, m, k⟩ dpp = true ↔
      (x.is_affine dpp = true ∧ y.is_affine dpp = true ∧
        z.is_affine dpp = true)) ∧
    ExpCone.is_dcp ⟨x, y, z⟩ dpp = RelEntrQuad.is_dcp ⟨x, y, z, m, k⟩ dpp := by
  cases dpp <;>
    simp [ExpCone.is_dcp, RelEntrQuad.is_dcp, ExpCone.args, RelEntrQuad.args]

/-- C8: `RelEntrQuad.save_dual_value` is a no-op — for every input vector it
raises no error and leaves every dual-value slot unchanged. -/
theorem c8_relentr_save_dual_value_noop (q : RelEntrQuad) (st : DualSlots)
    (v : List Rat) : q.save_dual_value st v = (st, none) := rfl

/-- C9: the residual of an ExpCone or RelEntrQuad is the "no value"
sentinel whenever some operand has no assigned value; only when all three
values are assigned does it proceed to the nested projection solve. -/
theorem c9_residual_guard (c : ExpCone) (q : RelEntrQuad)
    (solve : ProjectionProblem → Rat) :
    ((c.x.value = none ∨ c.y.value = none ∨ c.z.value = none) →
      c.residual solve = none) ∧
    (∀ xv yv zv : List Rat, c.x.value = some xv → c.y.value = some yv →
      c.z.value = some zv →
      c.residual solve =
        some (solve ⟨c.x.shape, c.y.shape, c.z.shape, xv, yv, zv, none⟩)) ∧
    ((q.x.value = none ∨ q.y.value = none ∨ q.z.value = none) →
      q.residual solve = none) ∧
    (∀ xv yv zv : List Rat, q.x.value = some xv → q.y.value = some yv →
      q.z.value = some zv →
      q.residual solve =
        some (solve ⟨q.x.shape, q.y.shape, q.z.shape, xv, yv, zv,
          some (q.m, q.k)⟩)) := by
  refine ⟨?_, ?_, ?_, ?_⟩
  · intro h
    cases hx2 : c.x.value <;> cases hy2 : c.y.value <;> cases hz2 : c.z.value <;>
      simp [ExpCone.residual, hx2, hy2, hz2] <;> simp [hx2, hy2, hz2] at h
  · intro xv yv zv hx2 hy2 hz2
    simp [ExpCone.residual, hx2, hy2, hz2]
  · intro h
    cases hx2 : q.x.value <;> cases hy2 : q.y.value <;> cases hz2 : q.z.value <;>
      simp [RelEntrQuad.residual, hx2, hy2, hz2] <;> simp [hx2, hy2, hz2] at h
  · intro xv yv zv hx2 hy2 hz2
    simp [RelEntrQuad.residual, hx2, hy2, hz2]

theorem c9_residual_guard_witness :
    ExpCone.residual ⟨sampleA, sampleB, sampleC⟩ (fun _ => 0) = none ∧
    RelEntrQuad.residual ⟨sampleA, sampleB, sampleB, 4, 6⟩ (fun _ => 0) =
      some 0 := by
  have h := c9_residual_guard ⟨sampleA, sampleB, sampleC⟩
    ⟨sampleA, sampleB, sampleB, 4, 6⟩ (fun _ => 0)
  exact ⟨h.1 (Or.inr (Or.inr rfl)), h.2.2.2 [1, 2] [3, 4] [3, 4] rfl rfl rfl⟩

/-- C10 counterexample: a RelEntrQuad is accepted with `m = 0` and
`k = -1`, and `as_quad_approx 0 (-1)` likewise succeeds — the code performs
no positivity validation of the quadrature parameters. -/
theorem c10_mk_validation_counterexample :
    RelEntrQuad.make sampleA sampleA sampleA 0 (-1) =
      .ok ⟨sampleA, sampleA, sampleA, 0, -1⟩ ∧
    ExpCone.as_quad_approx ⟨sampleA, sampleA, sampleA⟩ 0 (-1) =
      .ok ⟨sampleA, sampleA, .neg sampleA, 0, -1⟩ := ⟨rfl, rfl⟩

/-- C10 amended: `m` and `k` are stored verbatim with no validation at this
layer — any integers, positive or not, are accepted by `RelEntrQuad`
construction and returned unchanged by `get_data`. -/
theorem c10_mk_stored_verbatim (x y z : Expression) (m k : Int)
    (hy : x.shape = y.shape) (hz : x.shape = z.shape) :
    RelEntrQuad.make x y z m k = .ok ⟨x, y, z, m, k⟩ ∧
    (RelEntrQuad.mk x y z m k).get_data = [m, k] :=
  ⟨relEntrQuad_make_ok x y z m k hy hz, rfl⟩

theorem c10_mk_stored_verbatim_witness :
    RelEntrQuad.make sampleA sampleB sampleC (-3) 0 =
      .ok ⟨sampleA, sampleB, sampleC, -3, 0⟩ ∧
    RelEntrQuad.get_data ⟨sampleA, sampleB, sampleC, -3, 0⟩ = [-3, 0] :=
  c10_mk_stored_verbatim sampleA sampleB sampleC (-3) 0 rfl rfl

end CvxpyExp
